import Mathlib

/-!
Shallow embedding of `src/api_gen.py`, a Telegram intake bot that collects a
name and an email, validates the email, issues a UUID token, stores a user
record in a SQLite table `users`, and appends later chat messages to a
per-user history field.

Modelling choices:
* The SQLite table `users(id PK autoincrement, email UNIQUE NOT NULL,
  api_token UNIQUE, name, conversation_history)` is a `List UserRecord` in
  insertion order; `id` is assigned as `length + 1` (rows are never deleted,
  so this coincides with SQLite autoincrement).  An `INSERT` that violates a
  UNIQUE constraint (on `email` or on `api_token`) raises
  `sqlite3.IntegrityError`; `insert_user` returns `none` in that case.
* `context.user_data` is a dict holding at most the keys `step`, `name`,
  `email`; it is a structure of `Option String` fields, with the dict
  defaults (`get('step', 'name')`, `get('name', 'Невідомий')`) applied at
  the read sites, exactly as in the source.
* `generate_api_token()` is `uuid.uuid4()`, a random source; the generated
  token is passed to `handle_message` as an explicit argument `freshToken`.
* Python `\w` matches Unicode word characters; the model restricts the
  alphabet to the ASCII word characters (`isAlphanum` plus underscore).
  Every concrete input used below stays inside ASCII, where the model and
  Python agree, and the whitespace characters relevant to the anchoring
  behaviour of `$` (newline) are word characters in neither.
-/

/-- Python `\w` (ASCII fragment): letters, digits, underscore. -/
def isWordChar (c : Char) : Bool := c.isAlphanum || c = '_'

/-- The character class `[\w\.-]` of the email regex: word characters, dot, hyphen. -/
def isAtomChar (c : Char) : Bool := isWordChar c || c = '.' || c = '-'

/-- Matcher for `^[\w\.-]+@[\w\.-]+\.\w+$` against an exact end of input.
The regex is deterministic on any subject: `@` is outside `[\w\.-]`, so the
first `+` must consume exactly the characters before the first `@`, and
`.`/`-` are outside `\w`, so the final `\w+` must consume exactly the maximal
word-character suffix, which the literal `\.` must immediately precede.
`matchCore_iff_grammarL` below proves this matcher equivalent to the
declarative decomposition. -/
def matchCore (cs : List Char) : Bool :=
  match cs.dropWhile isAtomChar with
  | '@' :: rest2 =>
    match rest2.reverse.dropWhile isWordChar with
    | '.' :: bRev =>
      !(cs.takeWhile isAtomChar).isEmpty &&
        !(rest2.reverse.takeWhile isWordChar).isEmpty &&
        !bRev.isEmpty && bRev.all isAtomChar
    | _ => false
  | _ => false

/-- Python `re.match` with a `$` anchor (no `re.MULTILINE`) matches at the end
of the string or just before a single newline at the end of the string; this
strips that optional trailing newline. -/
def stripTrailingNewline (cs : List Char) : List Char :=
  if cs.getLast? = some '\n' then cs.dropLast else cs

/-- Function `is_valid_email` from the source:
`re.match(r'^[\w\.-]+@[\w\.-]+\.\w+$', email) is not None`. -/
def is_valid_email (email : String) : Bool :=
  matchCore (stripTrailingNewline email.data)

/-- A row of the `users` table created by `create_db`. -/
structure UserRecord where
  id : Nat
  email : String
  api_token : String
  name : String
  conversation_history : String
deriving DecidableEq, Repr

/-- Function `create_db()`: creates the `users` table if absent; the fresh store is empty. -/
def create_db : List UserRecord := []

/-- The `INSERT INTO users (email, api_token, name, conversation_history)
VALUES (?, ?, ?, ?)` of the registration branch.  Fails (`none`, standing for
`sqlite3.IntegrityError`) when the UNIQUE constraint on `email` or on
`api_token` is violated. -/
def insert_user (db : List UserRecord) (email api_token name conversation_history : String) :
    Option (List UserRecord) :=
  if db.any (fun r => r.email = email || r.api_token = api_token) then
    none
  else
    some (db ++ [{ id := db.length + 1, email := email, api_token := api_token,
                   name := name, conversation_history := conversation_history }])

/-- Query `SELECT conversation_history FROM users WHERE email = ?` followed by
`fetchone()`: the history of the first row with that email, if any. -/
def select_history (db : List UserRecord) (email : String) : Option String :=
  (db.find? (fun r => r.email = email)).map (fun r => r.conversation_history)

/-- Statement `UPDATE users SET conversation_history = ? WHERE email = ?`: rewrites the
history of every row whose email matches (at most one, by uniqueness). -/
def update_history (db : List UserRecord) (email newHistory : String) : List UserRecord :=
  db.map (fun r => if r.email = email then { r with conversation_history := newHistory } else r)

/-- Structure of `context.user_data` for one conversation: the dict keys `step`, `name`,
`email`, each absent (`none`) until first assigned. -/
structure UserData where
  step : Option String
  name : Option String
  email : Option String
deriving DecidableEq, Repr

/-- A fresh conversation: `user_data` is an empty dict. -/
def freshUserData : UserData := ⟨none, none, none⟩

/-- Reply of `start`. -/
def start_reply : String :=
  "Привіт! Будь ласка, введіть ваше ім" ++ String.singleton (Char.ofNat 39) ++ "я."

/-- Reply of the `name` step, greeting with the just-staged name. -/
def name_reply (name : String) : String :=
  "Дякую, " ++ name ++ "! Тепер, будь ласка, введіть вашу електронну пошту."

/-- Reply of a successful registration, containing the issued token. -/
def token_reply (api_token : String) : String := "Ваш API токен: " ++ api_token

/-- Reply of the `except sqlite3.IntegrityError` handler. -/
def duplicate_reply : String := "Ця пошта вже зареєстрована. Використайте іншу."

/-- Reply to a syntactically invalid email. -/
def invalid_reply : String := "Невірний формат пошти. Будь ласка, спробуйте ще раз."

/-- Acknowledgment reply of the `chat` step. -/
def chat_reply : String := "Повідомлення збережено."

/-- The `/start` handler: replies with the name prompt and sets
`user_data['step'] = 'name'`.  The triggering message text is not read. -/
def start (ctx : UserData) (_text : String) : UserData × String :=
  ({ ctx with step := some "name" }, start_reply)

/-- Handler `handle_message`: dispatch on `user_data.get('step', 'name')`.  Returns the
new conversation context, the new store, and the reply (none when `step` is
none of the three known values, where the Python falls through without
replying).  `freshToken` is the value `generate_api_token()` returns on this
call. -/
def handle_message (ctx : UserData) (db : List UserRecord) (text : String)
    (freshToken : String) : UserData × List UserRecord × Option String :=
  let step := ctx.step.getD "name"
  if step = "name" then
    ({ ctx with name := some text, step := some "email" }, db, some (name_reply text))
  else if step = "email" then
    if is_valid_email text then
      let api_token := freshToken
      let name := ctx.name.getD "Невідомий"
      match insert_user db text api_token name "" with
      | some db2 =>
        ({ ctx with step := some "chat", email := some text }, db2, some (token_reply api_token))
      | none => (ctx, db, some duplicate_reply)
    else
      (ctx, db, some invalid_reply)
  else if step = "chat" then
    match ctx.email with
    | none => (ctx, db, some chat_reply)
    | some email =>
      match select_history db email with
      | none => (ctx, db, some chat_reply)
      | some history =>
        let new_history :=
          if history = "" then "\"" ++ text ++ "\"" else history ++ ", \"" ++ text ++ "\""
        (ctx, update_history db email new_history, some chat_reply)
  else
    (ctx, db, none)

/-- The spec's email grammar, stated over a character list: one-or-more of
`{word characters, dot, hyphen}`, literal `@`, one-or-more of the same class,
literal `.`, one-or-more word characters. -/
def grammarL (cs : List Char) : Prop :=
  ∃ a b c : List Char,
    cs = a ++ '@' :: (b ++ '.' :: c) ∧ a ≠ [] ∧ b ≠ [] ∧ c ≠ [] ∧
      (∀ x ∈ a, isAtomChar x = true) ∧ (∀ x ∈ b, isAtomChar x = true) ∧
      (∀ x ∈ c, isWordChar x = true)

/-- The email grammar of the spec's words, as a predicate on strings,
"and nothing else": the whole string is the match.  Second definition for the
refinement claim about `is_valid_email`. -/
def email_grammar_spec (s : String) : Prop := grammarL s.data

lemma matchCore_iff_grammarL (cs : List Char) : matchCore cs = true ↔ grammarL cs := by
  constructor
  · intro h
    unfold matchCore at h
    split at h
    case _ rest2 heq =>
      split at h
      case _ bRev heq2 =>
        simp only [Bool.and_eq_true, Bool.not_eq_true', List.isEmpty_eq_false,
          List.all_eq_true] at h
        obtain ⟨⟨⟨hane, hcne⟩, hbne⟩, hball⟩ := h
        have hsplit : cs.takeWhile isAtomChar ++ '@' :: rest2 = cs := by
          rw [← heq]; exact List.takeWhile_append_dropWhile isAtomChar cs
        have hsplit2 : rest2.reverse.takeWhile isWordChar ++ '.' :: bRev = rest2.reverse := by
          rw [← heq2]; exact List.takeWhile_append_dropWhile isWordChar rest2.reverse
        have hrest2 : rest2 = bRev.reverse ++ '.' :: (rest2.reverse.takeWhile isWordChar).reverse := by
          conv_lhs => rw [← List.reverse_reverse rest2, ← hsplit2]
          simp [List.reverse_append, List.reverse_cons, List.append_assoc]
        refine ⟨cs.takeWhile isAtomChar, bRev.reverse,
          (rest2.reverse.takeWhile isWordChar).reverse, ?_, hane, ?_, ?_, ?_, ?_, ?_⟩
        · rw [← hrest2]; exact hsplit.symm
        · simpa using hbne
        · simpa using hcne
        · intro x hx; exact List.mem_takeWhile_imp hx
        · intro x hx; exact hball x (List.mem_reverse.mp hx)
        · intro x hx; exact List.mem_takeWhile_imp (List.mem_reverse.mp hx)
      all_goals exact absurd h (by simp)
    all_goals exact absurd h (by simp)
  · rintro ⟨a, b, c, rfl, ha, hb, hc, hA, hB, hC⟩
    have hA' : ∀ y ∈ a, isAtomChar y := hA
    have e2 : ((a ++ '@' :: (b ++ '.' :: c)).takeWhile isAtomChar) = a := by
      rw [List.takeWhile_append_of_pos hA', List.takeWhile_cons_of_neg (by decide)]
      simp
    have e1 : ((a ++ '@' :: (b ++ '.' :: c)).dropWhile isAtomChar) = '@' :: (b ++ '.' :: c) := by
      rw [List.dropWhile_append_of_pos hA', List.dropWhile_cons_of_neg (by decide)]
    have e3 : (b ++ '.' :: c).reverse = c.reverse ++ '.' :: b.reverse := by
      simp [List.reverse_append, List.reverse_cons, List.append_assoc]
    have hCrev : ∀ y ∈ c.reverse, isWordChar y := by
      intro y hy; exact hC y (List.mem_reverse.mp hy)
    have e4 : ((c.reverse ++ '.' :: b.reverse).takeWhile isWordChar) = c.reverse := by
      rw [List.takeWhile_append_of_pos hCrev, List.takeWhile_cons_of_neg (by decide)]
      simp
    have e5 : ((c.reverse ++ '.' :: b.reverse).dropWhile isWordChar) = '.' :: b.reverse := by
      rw [List.dropWhile_append_of_pos hCrev, List.dropWhile_cons_of_neg (by decide)]
    unfold matchCore
    rw [e1]
    simp only [e3, e4, e5]
    simp [ha, hb, hc, e2, List.all_eq_true]
    intro x hx; exact hB x hx

lemma grammarL_getLast {cs : List Char} (h : grammarL cs) :
    ∃ ch, cs.getLast? = some ch ∧ isWordChar ch = true := by
  obtain ⟨a, b, c, rfl, ha, hb, hc, hA, hB, hC⟩ := h
  rcases List.eq_nil_or_concat c with rfl | ⟨c0, ch, rfl⟩
  · exact absurd rfl hc
  · refine ⟨ch, ?_, hC ch (by simp)⟩
    have : a ++ '@' :: (b ++ '.' :: (c0.concat ch)) = (a ++ '@' :: (b ++ '.' :: c0)) ++ [ch] := by
      simp [List.append_assoc]
    rw [this, List.getLast?_concat]

lemma matchCore_strip_iff (cs : List Char) :
    matchCore (stripTrailingNewline cs) = true ↔
      grammarL cs ∨ ∃ l, cs = l ++ ['\n'] ∧ grammarL l := by
  unfold stripTrailingNewline
  by_cases hlast : cs.getLast? = some '\n'
  · rw [if_pos hlast]
    rcases List.eq_nil_or_concat cs with rfl | ⟨l0, ch, rfl⟩
    · simp at hlast
    · rw [List.concat_eq_append] at hlast ⊢
      rw [List.getLast?_concat] at hlast
      have hch : ch = '\n' := by injection hlast
      subst hch
      rw [List.dropLast_concat]
      rw [matchCore_iff_grammarL]
      constructor
      · intro h
        exact Or.inr ⟨l0, rfl, h⟩
      · rintro (hg | ⟨l, hEq, hg⟩)
        · obtain ⟨ch2, hc2, hw⟩ := grammarL_getLast hg
          rw [List.getLast?_concat] at hc2
          have : ch2 = '\n' := by injection hc2 with h2; exact h2.symm
          subst this
          exact absurd hw (by decide)
        · have hl : l = l0 := List.append_cancel_right hEq.symm
          subst hl
          exact hg
  · rw [if_neg hlast]
    rw [matchCore_iff_grammarL]
    constructor
    · exact Or.inl
    · rintro (hg | ⟨l, rfl, hg⟩)
      · exact hg
      · exact absurd (List.getLast?_concat l) hlast

/-- Full characterization of the validator on strings: acceptance is exactly a
grammar match, optionally with one trailing newline.  Shared by the claims
about the validator's language. -/
lemma is_valid_email_eq_true_iff (e : String) :
    is_valid_email e = true ↔
      (email_grammar_spec e ∨ ∃ t : String, e = t ++ "\n" ∧ email_grammar_spec t) := by
  unfold is_valid_email email_grammar_spec
  rw [matchCore_strip_iff]
  refine or_congr Iff.rfl ?_
  constructor
  · rintro ⟨l, hEq, hg⟩
    refine ⟨⟨l⟩, String.ext ?_, hg⟩
    simpa using hEq
  · rintro ⟨t, rfl, hg⟩
    exact ⟨t.data, by simp, hg⟩

/-- Claim C2 (amended): the email validator accepts a string iff it matches the
spec's grammar (one-or-more of word characters, dot, hyphen, then `@`, then
one-or-more of the same class, then `.`, then one-or-more word characters)
either exactly, or followed by a single trailing newline — the trailing
newline is admitted by Python's `$` anchor. -/
theorem email_validator_grammar_amended (e : String) :
    is_valid_email e = true ↔
      (email_grammar_spec e ∨ ∃ t : String, e = t ++ "\n" ∧ email_grammar_spec t) :=
  is_valid_email_eq_true_iff e

lemma handle_message_chat (ctx : UserData) (db : List UserRecord) (e m tok : String)
    (r : UserRecord)
    (hstep : ctx.step.getD "name" = "chat") (hemail : ctx.email = some e)
    (hfind : db.find? (fun x => x.email = e) = some r) :
    handle_message ctx db m tok =
      (ctx,
       update_history db e
         (if r.conversation_history = "" then "\"" ++ m ++ "\""
          else r.conversation_history ++ ", \"" ++ m ++ "\""),
       some chat_reply) := by
  simp only [handle_message, hstep, hemail, select_history, hfind]
  rw [if_neg (by decide : ¬("chat" : String) = "name"),
    if_neg (by decide : ¬("chat" : String) = "email"), if_pos trivial]
  rfl

lemma find?_update_history (db : List UserRecord) (e nh : String) :
    (update_history db e nh).find? (fun x => x.email = e) =
      (db.find? (fun x => x.email = e)).map
        (fun x => { x with conversation_history := nh }) := by
  induction db with
  | nil => rfl
  | cons r db ih =>
    by_cases h : r.email = e
    · simp [update_history, List.find?_cons, h]
    · simp [update_history, List.find?_cons, h] at ih ⊢
      exact ih

lemma append_quote_ne_empty (s : String) : s ++ "\"" ≠ "" := by
  intro h
  have h2 := congrArg String.data h
  simp at h2

lemma insert_user_eq_append (db : List UserRecord) (e tok n h0 : String)
    (hfresh : ∀ r ∈ db, r.email ≠ e ∧ r.api_token ≠ tok) :
    insert_user db e tok n h0 =
      some (db ++ [{ id := db.length + 1, email := e, api_token := tok,
                     name := n, conversation_history := h0 }]) := by
  unfold insert_user
  rw [if_neg]
  simp only [List.any_eq_true, not_exists]
  intro r
  rintro ⟨hr, hor⟩
  rcases Bool.or_eq_true .. ▸ hor with h1 | h2
  · exact (hfresh r hr).1 (by simpa using h1)
  · exact (hfresh r hr).2 (by simpa using h2)

lemma insert_user_eq_none (db : List UserRecord) (e tok n h0 : String)
    (hdup : ∃ r ∈ db, r.email = e ∨ r.api_token = tok) :
    insert_user db e tok n h0 = none := by
  unfold insert_user
  rw [if_pos]
  obtain ⟨r, hr, hor⟩ := hdup
  refine List.any_eq_true.mpr ⟨r, hr, ?_⟩
  rcases hor with h1 | h1 <;> simp [h1]

lemma handle_message_name (ctx : UserData) (db : List UserRecord) (m tok : String)
    (hstep : ctx.step.getD "name" = "name") :
    handle_message ctx db m tok =
      ({ ctx with name := some m, step := some "email" }, db, some (name_reply m)) := by
  simp only [handle_message, hstep]
  rw [if_pos trivial]

lemma handle_message_email_ok (ctx : UserData) (db db2 : List UserRecord) (e tok : String)
    (hstep : ctx.step.getD "name" = "email")
    (hv : is_valid_email e = true)
    (hins : insert_user db e tok (ctx.name.getD "Невідомий") "" = some db2) :
    handle_message ctx db e tok =
      ({ ctx with step := some "chat", email := some e }, db2, some (token_reply tok)) := by
  simp only [handle_message, hstep, hv, hins]
  rw [if_neg (by decide : ¬("email" : String) = "name"), if_pos trivial, if_pos trivial]

lemma handle_message_email_dup (ctx : UserData) (db : List UserRecord) (e tok : String)
    (hstep : ctx.step.getD "name" = "email")
    (hv : is_valid_email e = true)
    (hins : insert_user db e tok (ctx.name.getD "Невідомий") "" = none) :
    handle_message ctx db e tok = (ctx, db, some duplicate_reply) := by
  simp only [handle_message, hstep, hv, hins]
  rw [if_neg (by decide : ¬("email" : String) = "name"), if_pos trivial, if_pos trivial]

lemma handle_message_email_invalid (ctx : UserData) (db : List UserRecord) (m tok : String)
    (hstep : ctx.step.getD "name" = "email")
    (hv : is_valid_email m = false) :
    handle_message ctx db m tok = (ctx, db, some invalid_reply) := by
  simp only [handle_message, hstep, hv]
  rw [if_neg (by decide : ¬("email" : String) = "name"), if_pos trivial,
    if_neg (by simp [hv])]

lemma handle_message_chat_no_email (ctx : UserData) (db : List UserRecord) (m tok : String)
    (hstep : ctx.step.getD "name" = "chat") (hemail : ctx.email = none) :
    handle_message ctx db m tok = (ctx, db, some chat_reply) := by
  simp only [handle_message, hstep, hemail]
  rw [if_neg (by decide : ¬("chat" : String) = "name"),
    if_neg (by decide : ¬("chat" : String) = "email"), if_pos trivial]

lemma handle_message_chat_no_record (ctx : UserData) (db : List UserRecord) (e m tok : String)
    (hstep : ctx.step.getD "name" = "chat") (hemail : ctx.email = some e)
    (hfind : db.find? (fun x => x.email = e) = none) :
    handle_message ctx db m tok = (ctx, db, some chat_reply) := by
  simp only [handle_message, hstep, hemail, select_history, hfind]
  rw [if_neg (by decide : ¬("chat" : String) = "name"),
    if_neg (by decide : ¬("chat" : String) = "email"), if_pos trivial]
  rfl

lemma step_eq_some_of_getD {o : Option String} {s : String}
    (h : o.getD "name" = s) (hs : s ≠ "name") : o = some s := by
  cases o with
  | none => exact absurd h.symm hs
  | some v => simpa using h

/-- Claim C1: in step `email`, submitting a syntactically valid email that is
not in the store (with a token fresh for the store, as a freshly generated
UUID is) appends exactly one record with that email, the generated token, the
staged name and an empty history; the step becomes `chat`, the email is
staged in the context, and the reply contains the token. -/
theorem register_creates_one_record (ctx : UserData) (db : List UserRecord) (e tok : String)
    (hstep : ctx.step.getD "name" = "email")
    (hv : is_valid_email e = true)
    (hfresh : ∀ r ∈ db, r.email ≠ e ∧ r.api_token ≠ tok) :
    handle_message ctx db e tok =
      ({ ctx with step := some "chat", email := some e },
       db ++ [{ id := db.length + 1, email := e, api_token := tok,
                name := ctx.name.getD "Невідомий", conversation_history := "" }],
       some (token_reply tok)) ∧
      ∃ p, token_reply tok = p ++ tok := by
  refine ⟨?_, "Ваш API токен: ", rfl⟩
  exact handle_message_email_ok ctx db _ e tok hstep hv
    (insert_user_eq_append db e tok _ "" hfresh)

/-- Witness for claim C1 at a concrete conversation and empty store. -/
theorem register_creates_one_record_witness :
    handle_message ⟨some "email", some "Bob", none⟩ [] "a@b.c" "t" =
      (⟨some "chat", some "Bob", some "a@b.c"⟩,
       [⟨1, "a@b.c", "t", "Bob", ""⟩], some (token_reply "t")) ∧
    ∃ p, token_reply "t" = p ++ "t" :=
  register_creates_one_record ⟨some "email", some "Bob", none⟩ [] "a@b.c" "t" rfl (by decide)
    (by intro r hr; exact absurd hr (List.not_mem_nil r))

/-- Counterexample to claim C2 as stated: `"a@b.c\n"` is accepted by
`is_valid_email` although it does not match the grammar "and nothing else" —
the final character is a newline, not a word character. -/
theorem email_validator_newline_cex :
    ¬ (is_valid_email "a@b.c\n" = true ↔ email_grammar_spec "a@b.c\n") := by
  intro h
  obtain ⟨ch, hc, hw⟩ := grammarL_getLast (h.mp (by decide))
  have hlast : ("a@b.c\n").data.getLast? = some '\n' := by decide
  rw [hlast] at hc
  have hch : ch = '\n' := by injection hc with h2; exact h2.symm
  subst hch
  exact absurd hw (by decide)

/-- Claim C3: in step `email`, submitting a valid but already-registered email
leaves the context (hence the step) and the whole store unchanged and yields
the duplicate-email reply, which differs from the invalid-format reply. -/
theorem duplicate_email_keeps_state (ctx : UserData) (db : List UserRecord) (e tok : String)
    (hstep : ctx.step.getD "name" = "email")
    (hv : is_valid_email e = true)
    (hdup : ∃ r ∈ db, r.email = e) :
    handle_message ctx db e tok = (ctx, db, some duplicate_reply) ∧
      duplicate_reply ≠ invalid_reply := by
  refine ⟨handle_message_email_dup ctx db e tok hstep hv
    (insert_user_eq_none db e tok _ "" ?_), by decide⟩
  obtain ⟨r, hr, he⟩ := hdup
  exact ⟨r, hr, Or.inl he⟩

/-- Witness for claim C3 at a one-record store. -/
theorem duplicate_email_keeps_state_witness :
    handle_message ⟨some "email", none, none⟩ [⟨1, "a@b.c", "t0", "A", ""⟩] "a@b.c" "t1" =
      (⟨some "email", none, none⟩, [⟨1, "a@b.c", "t0", "A", ""⟩], some duplicate_reply) ∧
    duplicate_reply ≠ invalid_reply :=
  duplicate_email_keeps_state _ _ _ _ rfl (by decide)
    ⟨⟨1, "a@b.c", "t0", "A", ""⟩, List.mem_singleton.mpr rfl, rfl⟩

/-- Claim C4: in step `chat` with a registered staged email, sending `m1` and
then `m2` stores both messages in order as delimited quoted segments, and on
each of the two appends the previous history is a prefix of the new one. -/
theorem chat_appends_in_order (ctx : UserData) (db : List UserRecord)
    (e m1 m2 tok1 tok2 : String) (r : UserRecord)
    (hstep : ctx.step.getD "name" = "chat") (hemail : ctx.email = some e)
    (hfind : db.find? (fun x => x.email = e) = some r) :
    ∃ r1 r2 : UserRecord,
      ((handle_message ctx db m1 tok1).2.1).find? (fun x => x.email = e) = some r1 ∧
      ((handle_message (handle_message ctx db m1 tok1).1
          (handle_message ctx db m1 tok1).2.1 m2 tok2).2.1).find?
        (fun x => x.email = e) = some r2 ∧
      (∃ t, r1.conversation_history = r.conversation_history ++ t) ∧
      (∃ t, r2.conversation_history = r1.conversation_history ++ t) ∧
      r2.conversation_history =
        (if r.conversation_history = "" then "\"" ++ m1 ++ "\""
         else r.conversation_history ++ ", \"" ++ m1 ++ "\"") ++ ", \"" ++ m2 ++ "\"" := by
  set h1 : String := if r.conversation_history = "" then "\"" ++ m1 ++ "\""
    else r.conversation_history ++ ", \"" ++ m1 ++ "\"" with hh1
  have e1 : handle_message ctx db m1 tok1 = (ctx, update_history db e h1, some chat_reply) := by
    rw [handle_message_chat ctx db e m1 tok1 r hstep hemail hfind]
  have efind1 : (update_history db e h1).find? (fun x => x.email = e) =
      some { r with conversation_history := h1 } := by
    rw [find?_update_history, hfind]
    rfl
  have h1ne : ¬ h1 = "" := by
    rw [hh1]
    split
    · exact append_quote_ne_empty ("\"" ++ m1)
    · exact append_quote_ne_empty (r.conversation_history ++ ", \"" ++ m1)
  have e2 : handle_message ctx (update_history db e h1) m2 tok2 =
      (ctx, update_history (update_history db e h1) e (h1 ++ ", \"" ++ m2 ++ "\""),
        some chat_reply) := by
    have e3 := handle_message_chat ctx (update_history db e h1) e m2 tok2
      { r with conversation_history := h1 } hstep hemail efind1
    rw [if_neg h1ne] at e3
    exact e3
  refine ⟨{ r with conversation_history := h1 },
    { r with conversation_history := h1 ++ ", \"" ++ m2 ++ "\"" }, ?_, ?_, ?_, ?_, rfl⟩
  · rw [e1]
    exact efind1
  · rw [e1]
    simp only
    rw [e2]
    simp only
    rw [find?_update_history, efind1]
    rfl
  · by_cases hr0 : r.conversation_history = ""
    · refine ⟨h1, ?_⟩
      show h1 = r.conversation_history ++ h1
      rw [hr0, String.empty_append]
    · refine ⟨", \"" ++ m1 ++ "\"", ?_⟩
      show h1 = r.conversation_history ++ (", \"" ++ m1 ++ "\"")
      rw [hh1, if_neg hr0]
      simp [String.append_assoc]
  · refine ⟨", \"" ++ m2 ++ "\"", ?_⟩
    show h1 ++ ", \"" ++ m2 ++ "\"" = h1 ++ (", \"" ++ m2 ++ "\"")
    simp [String.append_assoc]

/-- Witness for claim C4: messages `"a"` then `"b"` from an empty history. -/
theorem chat_appends_in_order_witness :
    ∃ r1 r2 : UserRecord,
      ((handle_message ⟨some "chat", none, some "a@b.c"⟩ [⟨1, "a@b.c", "t", "A", ""⟩]
          "a" "x").2.1).find? (fun x => x.email = "a@b.c") = some r1 ∧
      ((handle_message (handle_message ⟨some "chat", none, some "a@b.c"⟩
            [⟨1, "a@b.c", "t", "A", ""⟩] "a" "x").1
          (handle_message ⟨some "chat", none, some "a@b.c"⟩
            [⟨1, "a@b.c", "t", "A", ""⟩] "a" "x").2.1 "b" "y").2.1).find?
        (fun x => x.email = "a@b.c") = some r2 ∧
      (∃ t, r1.conversation_history = ("" : String) ++ t) ∧
      (∃ t, r2.conversation_history = r1.conversation_history ++ t) ∧
      r2.conversation_history =
        (if ("" : String) = "" then "\"" ++ "a" ++ "\""
         else ("" : String) ++ ", \"" ++ "a" ++ "\"") ++ ", \"" ++ "b" ++ "\"" :=
  chat_appends_in_order ⟨some "chat", none, some "a@b.c"⟩ [⟨1, "a@b.c", "t", "A", ""⟩]
    "a@b.c" "a" "b" "x" "y" ⟨1, "a@b.c", "t", "A", ""⟩ rfl rfl (by decide)

/-- Claim C5: in step `chat`, when the staged email has no record, the handler
is a silent no-op on the store, the context is unchanged, and the
acknowledgment reply is still sent. -/
theorem chat_missing_record_silent (ctx : UserData) (db : List UserRecord) (e m tok : String)
    (hstep : ctx.step.getD "name" = "chat") (hemail : ctx.email = some e)
    (hfind : db.find? (fun x => x.email = e) = none) :
    handle_message ctx db m tok = (ctx, db, some chat_reply) :=
  handle_message_chat_no_record ctx db e m tok hstep hemail hfind

/-- Witness for claim C5 at an empty store. -/
theorem chat_missing_record_silent_witness :
    handle_message ⟨some "chat", none, some "x@y.z"⟩ [] "hello" "t" =
      (⟨some "chat", none, some "x@y.z"⟩, [], some chat_reply) :=
  chat_missing_record_silent ⟨some "chat", none, some "x@y.z"⟩ [] "x@y.z" "hello" "t"
    rfl rfl rfl

/-- Claim C6: once the step is `chat`, no `handle_message` transition leaves
it; and in step `email`, any input that is not a valid unregistered email
keeps the step at `email`. -/
theorem chat_terminal_email_sticky (ctx : UserData) (db : List UserRecord) (m tok : String) :
    (ctx.step.getD "name" = "chat" →
      (handle_message ctx db m tok).1.step = some "chat") ∧
    (ctx.step.getD "name" = "email" →
      (is_valid_email m = false ∨ ∃ r ∈ db, r.email = m) →
      (handle_message ctx db m tok).1.step = some "email") := by
  constructor
  · intro hstep
    have hctx : ctx.step = some "chat" := step_eq_some_of_getD hstep (by decide)
    cases hemail : ctx.email with
    | none => rw [handle_message_chat_no_email ctx db m tok hstep hemail]; exact hctx
    | some e =>
      cases hfind : db.find? (fun x => x.email = e) with
      | none => rw [handle_message_chat_no_record ctx db e m tok hstep hemail hfind]; exact hctx
      | some r => rw [handle_message_chat ctx db e m tok r hstep hemail hfind]; exact hctx
  · intro hstep hbad
    have hctx : ctx.step = some "email" := step_eq_some_of_getD hstep (by decide)
    by_cases hv : is_valid_email m = true
    · have hdup : ∃ r ∈ db, r.email = m := by
        rcases hbad with hf | hd
        · rw [hv] at hf; exact absurd hf (by decide)
        · exact hd
      obtain ⟨r, hr, he⟩ := hdup
      rw [handle_message_email_dup ctx db m tok hstep hv
        (insert_user_eq_none db m tok _ "" ⟨r, hr, Or.inl he⟩)]
      exact hctx
    · have hv2 : is_valid_email m = false := by simpa using hv
      rw [handle_message_email_invalid ctx db m tok hstep hv2]
      exact hctx

/-- Witness for claim C6: a `chat` conversation and an invalid email. -/
theorem chat_terminal_email_sticky_witness :
    (handle_message ⟨some "chat", none, none⟩ [] "m" "t").1.step = some "chat" ∧
    (handle_message ⟨some "email", none, none⟩ [] "bad" "t").1.step = some "email" :=
  ⟨(chat_terminal_email_sticky ⟨some "chat", none, none⟩ [] "m" "t").1 rfl,
   (chat_terminal_email_sticky ⟨some "email", none, none⟩ [] "bad" "t").2 rfl
     (Or.inl (by decide))⟩

/-- Counterexample to claim C7 as stated: `"a@b.c\n"` does not match the email
grammar (its last character is a newline, not a word character), yet in step
`email` the code does not leave the state unchanged with the invalid-format
reply — it registers the string: one record is inserted, the step moves to
`chat`, the email is staged, and the reply carries the token. -/
theorem invalid_format_claim_cex :
    ¬ email_grammar_spec "a@b.c\n" ∧
    handle_message ⟨some "email", none, none⟩ [] "a@b.c\n" "t" =
      (⟨some "chat", none, some "a@b.c\n"⟩,
       [⟨1, "a@b.c\n", "t", "Невідомий", ""⟩], some (token_reply "t")) ∧
    token_reply "t" ≠ invalid_reply := by
  refine ⟨?_, by decide, by decide⟩
  intro hg
  obtain ⟨ch, hc, hw⟩ := grammarL_getLast hg
  have hlast : ("a@b.c\n").data.getLast? = some '\n' := by decide
  rw [hlast] at hc
  have hch : ch = '\n' := by injection hc with h2; exact h2.symm
  subst hch
  exact absurd hw (by decide)

/-- Claim C7 (amended): in step `email`, a string that neither matches the
email grammar nor is a grammar match followed by a single trailing newline
leaves the context (hence the step) and the store unchanged and yields the
invalid-format reply. -/
theorem invalid_email_no_mutation_amended (ctx : UserData) (db : List UserRecord)
    (m tok : String)
    (hstep : ctx.step.getD "name" = "email")
    (hv : ¬ (email_grammar_spec m ∨ ∃ t : String, m = t ++ "\n" ∧ email_grammar_spec t)) :
    handle_message ctx db m tok = (ctx, db, some invalid_reply) := by
  refine handle_message_email_invalid ctx db m tok hstep ?_
  cases hb : is_valid_email m
  · rfl
  · exact absurd ((is_valid_email_eq_true_iff m).mp hb) hv

/-- Witness for claim C7 (amended) on the input `"bad"`. -/
theorem invalid_email_no_mutation_amended_witness :
    handle_message ⟨some "email", none, none⟩ [] "bad" "t" =
      (⟨some "email", none, none⟩, [], some invalid_reply) :=
  invalid_email_no_mutation_amended ⟨some "email", none, none⟩ [] "bad" "t" rfl
    (fun h => absurd ((is_valid_email_eq_true_iff "bad").mpr h) (by decide))

/-- Claim C8: a record persisted by a successful registration insert and read
back from the store has the email, token and name that were written, and an
empty history. -/
theorem create_roundtrip (db : List UserRecord) (e tok n : String) (db2 : List UserRecord)
    (h : insert_user db e tok n "" = some db2) :
    ∃ r, db2.find? (fun x => x.email = e) = some r ∧
      r.email = e ∧ r.api_token = tok ∧ r.name = n ∧ r.conversation_history = "" := by
  unfold insert_user at h
  split at h
  · exact absurd h (by simp)
  · rename_i hany
    injection h with hdb
    subst hdb
    have hnone : db.find? (fun x => x.email = e) = none := by
      rw [List.find?_eq_none]
      intro x hx
      simp only [List.any_eq_true, not_exists] at hany
      have hx2 : ¬ (x.email = e || x.api_token = tok) = true := fun hc => hany x ⟨hx, hc⟩
      simp only [Bool.or_eq_true, decide_eq_true_eq] at hx2
      simp [not_or.mp hx2]
    refine ⟨{ id := db.length + 1, email := e, api_token := tok, name := n, conversation_history := "" }, ?_, rfl, rfl, rfl, rfl⟩
    rw [List.find?_append, hnone]
    simp [List.find?_cons]

/-- Witness for claim C8: inserting into an empty store and reading back. -/
theorem create_roundtrip_witness :
    ∃ r, ([{ id := 1, email := "a@b.c", api_token := "t", name := "A",
             conversation_history := "" }] : List UserRecord).find?
        (fun x => x.email = "a@b.c") = some r ∧
      r.email = "a@b.c" ∧ r.api_token = "t" ∧ r.name = "A" ∧ r.conversation_history = "" :=
  create_roundtrip [] "a@b.c" "t" "A"
    [{ id := 1, email := "a@b.c", api_token := "t", name := "A", conversation_history := "" }]
    rfl

/-- Claim C9: for every text input, a fresh conversation's begin event replies
with the name prompt and sets the step to `name`; the next text input is
staged as the name and the step becomes `email`. -/
theorem fresh_conversation_flow (m1 m2 tok : String) (db : List UserRecord) :
    (start freshUserData m1).2 = start_reply ∧
    (start freshUserData m1).1.step = some "name" ∧
    (handle_message (start freshUserData m1).1 db m2 tok).1.name = some m2 ∧
    (handle_message (start freshUserData m1).1 db m2 tok).1.step = some "email" ∧
    (handle_message (start freshUserData m1).1 db m2 tok).2.2 = some (name_reply m2) := by
  have e0 := handle_message_name (start freshUserData m1).1 db m2 tok rfl
  refine ⟨rfl, rfl, ?_, ?_, ?_⟩ <;> rw [e0]

/-- Claim C10: if the insert fails only because the generated token collides
with an existing token (the email being unregistered), the handler still
replies with the duplicate-email message, the step stays `email`, and the
store is unchanged: the `except sqlite3.IntegrityError` handler does not
distinguish the two uniqueness violations. -/
theorem token_collision_as_duplicate (ctx : UserData) (db : List UserRecord) (e tok : String)
    (hstep : ctx.step.getD "name" = "email")
    (hv : is_valid_email e = true)
    (_hmail : ∀ r ∈ db, r.email ≠ e)
    (hcol : ∃ r ∈ db, r.api_token = tok) :
    handle_message ctx db e tok = (ctx, db, some duplicate_reply) := by
  obtain ⟨r, hr, ht⟩ := hcol
  exact handle_message_email_dup ctx db e tok hstep hv
    (insert_user_eq_none db e tok _ "" ⟨r, hr, Or.inr ht⟩)

/-- Witness for claim C10: fresh email `"a@b.c"` but colliding token `"t"`. -/
theorem token_collision_as_duplicate_witness :
    handle_message ⟨some "email", none, none⟩ [⟨1, "x@y.z", "t", "A", ""⟩] "a@b.c" "t" =
      (⟨some "email", none, none⟩, [⟨1, "x@y.z", "t", "A", ""⟩], some duplicate_reply) :=
  token_collision_as_duplicate ⟨some "email", none, none⟩ [⟨1, "x@y.z", "t", "A", ""⟩]
    "a@b.c" "t" rfl (by decide) (by decide)
    ⟨⟨1, "x@y.z", "t", "A", ""⟩, List.mem_singleton.mpr rfl, rfl⟩
